import Mathlib

/-!
Shallow embedding of the ultrasonic intruder-detection sketch
(`src/IntruderDetectionSystem.cpp`, duplicated line for line in
`src/main.cpp`).

* `getDistanceCm` embeds the sampling routine: five `pulseIn` readings
  (each `0` on timeout), strictly positive readings accumulated into
  `sum`, then `avg = sum / 5` with C integer division on `long`, and the
  returned value `(avg * SOUND_SPEED) / 2`.  The raw echo durations are
  supplied by the environment as `echo : Fin 5 → ℕ` (one per iteration
  of the `for` loop); the final conversion, a `float` computation in the
  source, is modelled exactly over `ℚ`.
* `update` embeds the hysteresis branch at the end of `loop()`: the test
  `!intruder && distanceCm > 0 && distanceCm < 6` sets the flag, prints
  the detection line and drives the buzzer pin HIGH; otherwise the test
  `intruder && distanceCm > 8` clears the flag, prints the clear line
  and drives the buzzer pin LOW; otherwise nothing is touched.  The
  printed status line is modelled as the emitted `UpdateEvent`, and the
  `digitalWrite(buzzerPin, _)` call as an `Option Bool` write command
  (`none` when the pin is not written this cycle).
* `loopStep` and `run` iterate the cycle from the startup state
  (`intruder = false` at its declaration, buzzer driven LOW in
  `setup()`).
-/

namespace IntruderDetection

/-- The macro SOUND_SPEED = 0.034 (cm per microsecond), as an exact
rational. -/
def SOUND_SPEED : ℚ := 34 / 1000

/-- The macro CM_TO_INCH = 0.393701, as an exact rational. -/
def CM_TO_INCH : ℚ := 393701 / 1000000

/-- The `for (int i = 0; i < 5; i++)` accumulation in `getDistanceCm`:
`if (d > 0) sum += d;` applied to the five echo readings in order.  A
reading is the value of `pulseIn(echoPin, HIGH, 30000)`: the measured
pulse duration in microseconds, or `0` on timeout (always
non-negative, hence `ℕ`). -/
def echoSum (echo : Fin 5 → ℕ) : ℕ :=
  List.foldl (fun sum i => if 0 < echo i then sum + echo i else sum) 0
    [0, 1, 2, 3, 4]

/-- Embeds `float getDistanceCm()`: `long avg = sum / 5;` (C integer
division on non-negative values, i.e. `Nat` division) followed by
`return (avg * SOUND_SPEED) / 2;`. -/
def getDistanceCm (echo : Fin 5 → ℕ) : ℚ :=
  ((echoSum echo / 5 : ℕ) : ℚ) * SOUND_SPEED / 2

/-- Outcome of one detector update: which status line `loop()` prints
this cycle, if any (`"⚠ Intruder detected!"` ↦ `EnterDetected`,
`"Area clear"` ↦ `EnterClear`). -/
inductive UpdateEvent
  | NoChange
  | EnterDetected
  | EnterClear
deriving DecidableEq, Repr

/-- The hysteresis branch of `loop()`, as a pure function of the
distance and the `intruder` flag.  Returns the new flag, the emitted
event, and the buzzer write command (`some true` for
`digitalWrite(buzzerPin, HIGH)`, `some false` for LOW, `none` when the
pin is not written). -/
def update (distanceCm : ℚ) (intruder : Bool) :
    Bool × UpdateEvent × Option Bool :=
  if intruder = false ∧ 0 < distanceCm ∧ distanceCm < 6 then
    (true, UpdateEvent.EnterDetected, some true)
  else if intruder = true ∧ 8 < distanceCm then
    (false, UpdateEvent.EnterClear, some false)
  else
    (intruder, UpdateEvent.NoChange, none)

/-- Persistent system state across loop iterations: the `intruder`
flag and the level last driven on the buzzer pin. -/
structure SysState where
  intruder : Bool
  buzzer : Bool
deriving DecidableEq, Repr

/-- State after `setup()`: `bool intruder = false;` and
`digitalWrite(buzzerPin, LOW);`. -/
def initState : SysState :=
  { intruder := false, buzzer := false }

/-- One iteration of `loop()` given the distance measured this cycle:
apply `update` and latch the buzzer level if the pin was written. -/
def loopStep (d : ℚ) (s : SysState) : SysState :=
  let r := update d s.intruder
  { intruder := r.1, buzzer := r.2.2.getD s.buzzer }

/-- The system state after running `loop()` once per element of `ds`
(the successive measured distances), starting from `initState`. -/
def run (ds : List ℚ) : SysState :=
  ds.foldl (fun s d => loopStep d s) initState

/-- The transition table of spec §4.2, transcribed literally from the
spec's words for comparison with `update` (near = 6, far = 8): from
`Clear`, `0 < distance < near` gives `Detected`/`EnterDetected`/drive
HIGH; from `Detected`, `distance > far` gives
`Clear`/`EnterClear`/drive LOW; otherwise no change, no event, no side
effect. -/
def specTableUpdate (d : ℚ) (detected : Bool) :
    Bool × UpdateEvent × Option Bool :=
  match detected with
  | false =>
    if 0 < d ∧ d < 6 then (true, UpdateEvent.EnterDetected, some true)
    else (false, UpdateEvent.NoChange, none)
  | true =>
    if 8 < d then (false, UpdateEvent.EnterClear, some false)
    else (true, UpdateEvent.NoChange, none)

/-! Helper lemmas shared by the claim theorems. -/

/-- The accumulated sum equals the sum of the strictly positive
readings among the five. -/
lemma echoSum_eq_sum (echo : Fin 5 → ℕ) :
    echoSum echo = ∑ i : Fin 5, if 0 < echo i then echo i else 0 := by
  simp [echoSum, Fin.sum_univ_five, List.foldl]
  split_ifs <;> omega

/-- A distance in the hysteresis band leaves the flag unchanged in one
step. -/
lemma update_inband_fixed (d : ℚ) (h1 : 6 ≤ d) (h2 : d ≤ 8) (b : Bool) :
    (update d b).1 = b := by
  unfold update
  split_ifs with hA hB
  · exact absurd hA.2.2 (not_lt.mpr h1)
  · exact absurd hB.2 (not_lt.mpr h2)
  · rfl

/-- The loop step preserves agreement between the buzzer level and the
intruder flag. -/
lemma loopStep_preserves (d : ℚ) (s : SysState)
    (h : s.buzzer = s.intruder) :
    (loopStep d s).buzzer = (loopStep d s).intruder := by
  unfold loopStep update
  split_ifs <;> simp [h]

/-! The claims. -/

/-- Claim C1: for every distance value `d` and every current presence
state, one update step of the detector follows the two-threshold
hysteresis table of the spec exactly: from Clear with `0 < d < 6` the
state becomes Detected, `EnterDetected` is emitted and the alert output
is driven HIGH; from Detected with `d > 8` the state becomes Clear,
`EnterClear` is emitted and the alert output is driven LOW; in every
other combination the state is unchanged and no event is emitted. -/
theorem update_matches_spec_table (d : ℚ) (b : Bool) :
    update d b = specTableUpdate d b := by
  cases b <;> unfold update specTableUpdate <;> split_ifs <;> simp_all

/-- Claim C2: for every sequence of 5 raw echo durations with at least
one strictly positive duration, `getDistanceCm` returns
(sum of the strictly positive durations / 5) * SOUND_SPEED / 2, the
division of the sum by the fixed count 5 being `Nat` integer division,
and zero durations being excluded from the sum entirely. -/
theorem getDistanceCm_positive_avg (echo : Fin 5 → ℕ)
    (h : ∃ i, 0 < echo i) :
    getDistanceCm echo =
      (((∑ i : Fin 5, if 0 < echo i then echo i else 0) / 5 : ℕ) : ℚ) *
        SOUND_SPEED / 2 := by
  rw [getDistanceCm, echoSum_eq_sum]

/-- Witness for C2 at the readings 0, 100, 200, 300, 400. -/
theorem getDistanceCm_positive_avg_witness :
    (∃ i : Fin 5, 0 < (fun j : Fin 5 => j.val * 100) i) ∧
    getDistanceCm (fun j : Fin 5 => j.val * 100) =
      (((∑ i : Fin 5,
          if 0 < (fun j : Fin 5 => j.val * 100) i
          then (fun j : Fin 5 => j.val * 100) i else 0) / 5 : ℕ) : ℚ) *
        SOUND_SPEED / 2 :=
  ⟨⟨1, by decide⟩, getDistanceCm_positive_avg _ ⟨1, by decide⟩⟩

/-- Claim C3: if all 5 raw echo durations are 0 (every sub-sample timed
out), `getDistanceCm` returns exactly 0; no error value or exceptional
path exists in the embedding, so the cycle degrades to a plain 0
reading. -/
theorem getDistanceCm_all_zero (echo : Fin 5 → ℕ)
    (h : ∀ i, echo i = 0) :
    getDistanceCm echo = 0 := by
  have hs : echoSum echo = 0 := by simp [echoSum, h]
  simp [getDistanceCm, hs]

/-- Witness for C3 at the all-zero reading. -/
theorem getDistanceCm_all_zero_witness :
    (∀ i : Fin 5, (fun _ : Fin 5 => 0) i = 0) ∧
    getDistanceCm (fun _ : Fin 5 => 0) = 0 :=
  ⟨fun _ => rfl, getDistanceCm_all_zero _ (fun _ => rfl)⟩

/-- Claim C4: a distance reading of exactly 0 never causes the
`EnterDetected` transition, from any state; from Clear, feeding 0
yields `NoChange` and the state remains Clear. -/
theorem update_zero_never_detects :
    (∀ b : Bool, (update 0 b).2.1 ≠ UpdateEvent.EnterDetected) ∧
    update 0 false = (false, UpdateEvent.NoChange, none) := by
  decide

/-- Claim C5: threshold comparisons are strict at both boundaries:
from Clear, distance exactly 6 does not trigger the Detected
transition, and from Detected, distance exactly 8 does not trigger the
Clear transition; both steps yield `NoChange`. -/
theorem update_boundaries_strict :
    update 6 false = (false, UpdateEvent.NoChange, none) ∧
    update 8 true = (true, UpdateEvent.NoChange, none) := by
  decide

/-- Claim C6: for every distance in the hysteresis band (6 ≤ d ≤ 8)
and either starting state, applying the detector update any number of
times never changes the presence flag. -/
theorem update_inband_idempotent (d : ℚ) (h1 : 6 ≤ d) (h2 : d ≤ 8)
    (b : Bool) (n : ℕ) :
    (fun s => (update d s).1)^[n] b = b :=
  Function.iterate_fixed (update_inband_fixed d h1 h2 b) n

/-- Witness for C6 at distance 7, starting state Detected, 3 steps. -/
theorem update_inband_idempotent_witness :
    (6 : ℚ) ≤ 7 ∧ (7 : ℚ) ≤ 8 ∧
    (fun s => (update 7 s).1)^[3] true = true :=
  ⟨by decide, by decide,
    update_inband_idempotent 7 (by decide) (by decide) true 3⟩

/-- Claim C7: for every sequence of raw echo durations (non-negative,
0 on timeout), the distance returned by `getDistanceCm` is ≥ 0. -/
theorem getDistanceCm_nonneg (echo : Fin 5 → ℕ) :
    0 ≤ getDistanceCm echo := by
  unfold getDistanceCm SOUND_SPEED
  positivity

/-- Claim C8: in every update cycle whose outcome is `NoChange`, the
presence flag is left untouched and the alert output line is not
written. -/
theorem update_nochange_frame (d : ℚ) (b : Bool)
    (h : (update d b).2.1 = UpdateEvent.NoChange) :
    (update d b).1 = b ∧ (update d b).2.2 = none := by
  unfold update at h ⊢
  split_ifs at h ⊢ <;> simp_all

/-- Witness for C8 at in-band distance 7 from Clear. -/
theorem update_nochange_frame_witness :
    (update 7 false).2.1 = UpdateEvent.NoChange ∧
    (update 7 false).1 = false ∧ (update 7 false).2.2 = none :=
  ⟨by decide, update_nochange_frame 7 false (by decide)⟩

/-- Claim C9: after initialization and after every completed loop
iteration, the alert output level equals the presence flag: the buzzer
is HIGH exactly when the state is Detected, in every state reachable
by `run`. -/
theorem run_buzzer_matches_intruder (ds : List ℚ) :
    (run ds).buzzer = (run ds).intruder := by
  have key : ∀ (l : List ℚ) (s : SysState), s.buzzer = s.intruder →
      (l.foldl (fun s d => loopStep d s) s).buzzer =
        (l.foldl (fun s d => loopStep d s) s).intruder := by
    intro l
    induction l with
    | nil => exact fun s h => h
    | cons d tl ih => exact fun s h => ih _ (loopStep_preserves d s h)
  exact key ds initState rfl

/-- Claim C10: if each of the 5 raw echo durations is bounded by the
30000-time-unit pulse timeout, the returned distance never exceeds
30000 * SOUND_SPEED / 2 = 510. -/
theorem getDistanceCm_timeout_bound (echo : Fin 5 → ℕ)
    (h : ∀ i, echo i ≤ 30000) :
    getDistanceCm echo ≤ 510 := by
  have h0 := h 0
  have h1 := h 1
  have h2 := h 2
  have h3 := h 3
  have h4 := h 4
  have hsum : echoSum echo ≤ 150000 := by
    simp only [echoSum, List.foldl]
    split_ifs <;> omega
  have havg : echoSum echo / 5 ≤ 30000 := by omega
  have hcast : ((echoSum echo / 5 : ℕ) : ℚ) ≤ 30000 := by
    exact_mod_cast havg
  unfold getDistanceCm SOUND_SPEED
  linarith

/-- Witness for C10 at the saturated readings (all 30000). -/
theorem getDistanceCm_timeout_bound_witness :
    (∀ i : Fin 5, (fun _ : Fin 5 => 30000) i ≤ 30000) ∧
    getDistanceCm (fun _ : Fin 5 => 30000) ≤ 510 :=
  ⟨fun _ => le_refl _, getDistanceCm_timeout_bound _ (fun _ => le_refl _)⟩

end IntruderDetection
